import Mathlib

/-!
# LighterTGBot: change detection and notification fan-out

A shallow embedding of the change-detection and fan-out code of `src/bot.js`.  The two
module-level `Set`s, the two JSON files and the calls made on the Telegram client and on
`fs` are fields of an explicit `World`; the outcomes of the external calls (`axios.get`,
`bot.sendMessage`, `fs.writeFileSync`) are read from an `Env`.  Each function runs to
completion: the event loop does not interleave another handler at an `await`.  Console
output is not modelled.
-/

namespace LighterTGBot

/-! ## JavaScript `Set` -/

/-- A JavaScript `Set`: its values in insertion order, none repeated. -/
structure JSSet (α : Type) [DecidableEq α] where
  elems : List α
  nodup : elems.Nodup

namespace JSSet

variable {α : Type} [DecidableEq α]

/-- Models `new Set()`. -/
def empty : JSSet α := ⟨[], List.nodup_nil⟩

/-- Models `set.has(x)`. -/
def has (s : JSSet α) (x : α) : Bool := decide (x ∈ s.elems)

/-- Models `set.add(x)`: a value already present keeps its place, a new one goes last. -/
def add (s : JSSet α) (x : α) : JSSet α :=
  if h : x ∈ s.elems then s
  else ⟨s.elems ++ [x], List.Nodup.append s.nodup (List.nodup_singleton x)
    (by
      intro a ha hx
      rw [List.mem_singleton] at hx
      exact h (hx ▸ ha))⟩

/-- Models `set.delete(x)`. -/
def delete (s : JSSet α) (x : α) : JSSet α := ⟨s.elems.erase x, s.nodup.erase x⟩

/-- Models `set.size`. -/
def size (s : JSSet α) : Nat := s.elems.length

/-- Models `Array.from(set)`: the values in insertion order. -/
def toArray (s : JSSet α) : List α := s.elems

/-- Models `new Set(array)`. -/
def ofArray (xs : List α) : JSSet α := xs.foldl add empty

end JSSet

/-! ## Data -/

/-- An item identifier (`item.symbol`). -/
abbrev Symbol := String

/-- A Telegram chat id (`msg.chat.id`). -/
abbrev ChatId := Int

/-! ## The diff loop of `checkForNewSymbols` (bot.js 171-178) -/

/-- One turn of `for (const symbol of apiSymbols)`: the pair is
`(newSymbols, currentSymbols)`. -/
def diffStep (acc : List Symbol × JSSet Symbol) (symbol : Symbol) : List Symbol × JSSet Symbol :=
  if !acc.2.has symbol then (acc.1 ++ [symbol], acc.2.add symbol) else acc

/-- The loop of bot.js 171-178, started with `newSymbols = []`. -/
def diffLoop (apiSymbols : List Symbol) (currentSymbols : JSSet Symbol) :
    List Symbol × JSSet Symbol :=
  apiSymbols.foldl diffStep ([], currentSymbols)

/-! ## The outside world -/

/-- The two classes of delivery failure the specification distinguishes (section 7); a
rejected `bot.sendMessage` carries one of them. -/
inductive DeliveryError where
  | transient
  | permanent
deriving DecidableEq, Repr

/-- One inline button: `{ text, url }`. -/
structure Button where
  text : String
  url : String
deriving DecidableEq, Repr

/-- The `reply_markup` object `{ inline_keyboard: keyboard }`. -/
structure InlineKeyboard where
  inline_keyboard : List (List Button)
deriving DecidableEq, Repr

/-- The two files the bot writes: `SYMBOLS_FILE` and `SUBSCRIBERS_FILE`. -/
inductive File where
  | symbols
  | subscribers
deriving DecidableEq, Repr

/-- A call made on an external collaborator, in the order the calls are made. -/
inductive Event where
  /-- Models `bot.sendMessage(chatId, text, { reply_markup })`, or without markup -/
  | sendMessage (chatId : ChatId) (text : String) (reply_markup : Option InlineKeyboard)
  /-- Models `fs.writeFileSync(SYMBOLS_FILE, JSON.stringify(symbols, null, 2))` -/
  | writeSymbols (symbols : List Symbol)
  /-- Models `fs.writeFileSync(SUBSCRIBERS_FILE, JSON.stringify(subList, null, 2))` -/
  | writeSubscribers (subList : List ChatId)
deriving DecidableEq, Repr

/-- One entry of `response.data.order_book_details`. -/
structure OrderBookDetail where
  symbol : Symbol
deriving DecidableEq, Repr

/-- What `await axios.get(API_URL)` yields: a thrown error, or a response with
`data.code` and `data.order_book_details` (`none` when the field is missing). -/
inductive HttpResult where
  | networkError
  | response (code : Int) (order_book_details : Option (List OrderBookDetail))
deriving DecidableEq, Repr

/-- Outcomes of the external calls. -/
structure Env where
  /-- the outcome of `axios.get(API_URL)` -/
  get : HttpResult
  /-- the outcome of `bot.sendMessage` for a recipient, text and markup -/
  send : ChatId → String → Option InlineKeyboard → Except DeliveryError Unit
  /-- whether `fs.writeFileSync` on the file succeeds (otherwise it throws) -/
  writable : File → Bool

/-- The mutable state: the two module-level sets, the two files (`none`: no file), and
the calls made so far. -/
structure World where
  currentSymbols : JSSet Symbol
  subscribers : JSSet ChatId
  symbolsFile : Option (List Symbol)
  subscribersFile : Option (List ChatId)
  calls : List Event

/-- Whether a `bot.sendMessage` promise resolved. -/
def delivered (r : Except DeliveryError Unit) : Bool :=
  match r with
  | .ok _ => true
  | .error _ => false

/-! ## Persistence (bot.js 52-72) -/

/-- Models `saveSymbols()`: the write is attempted; when it throws, the error is logged and the
file is left as it was. -/
def saveSymbols (env : Env) (w : World) : World :=
  let symbols := w.currentSymbols.toArray
  let w1 := { w with calls := w.calls ++ [Event.writeSymbols symbols] }
  if env.writable File.symbols then { w1 with symbolsFile := some symbols } else w1

/-- Models `saveSubscribers()`. -/
def saveSubscribers (env : Env) (w : World) : World :=
  let subList := w.subscribers.toArray
  let w1 := { w with calls := w.calls ++ [Event.writeSubscribers subList] }
  if env.writable File.subscribers then { w1 with subscribersFile := some subList } else w1

/-! ## Subscription registry (bot.js 74-94) -/

/-- Models `addSubscriber(chatId)`. -/
def addSubscriber (env : Env) (chatId : ChatId) (w : World) : Bool × World :=
  if !w.subscribers.has chatId then
    (true, saveSubscribers env { w with subscribers := w.subscribers.add chatId })
  else
    (false, w)

/-- Models `removeSubscriber(chatId)`. -/
def removeSubscriber (env : Env) (chatId : ChatId) (w : World) : Bool × World :=
  if w.subscribers.has chatId then
    (true, saveSubscribers env { w with subscribers := w.subscribers.delete chatId })
  else
    (false, w)

/-! ## Broadcast (bot.js 96-142) -/

/-- Models `await bot.sendMessage(chatId, text, options)`: the call is recorded and its outcome
is the one the environment gives. -/
def sendMessage (env : Env) (chatId : ChatId) (text : String)
    (reply_markup : Option InlineKeyboard) (w : World) : Except DeliveryError Unit × World :=
  (env.send chatId text reply_markup,
    { w with calls := w.calls ++ [Event.sendMessage chatId text reply_markup] })

/-- One turn of `for (const chatId of subscribers)`: `try` the send, on any error push the
chat onto `failedChats`.  The pair is `(failedChats, world)`. -/
def broadcastStep (env : Env) (message : String) (reply_markup : Option InlineKeyboard)
    (acc : List ChatId × World) (chatId : ChatId) : List ChatId × World :=
  match sendMessage env chatId message reply_markup acc.2 with
  | (.ok _, w1) => (acc.1, w1)
  | (.error _, w1) => (acc.1 ++ [chatId], w1)

/-- The body shared by `broadcastMessage` and `broadcastMessageWithButtons`, which differ
only in the options passed to `bot.sendMessage`: the send loop, then
`failedChats.forEach(chatId => removeSubscriber(chatId))`, then `subscribers.size`. -/
def broadcast (env : Env) (message : String) (reply_markup : Option InlineKeyboard)
    (w : World) : Nat × World :=
  let r := w.subscribers.toArray.foldl (broadcastStep env message reply_markup) ([], w)
  let failedChats := r.1
  let w2 :=
    if failedChats.length > 0 then
      failedChats.foldl (fun w1 chatId => (removeSubscriber env chatId w1).2) r.2
    else r.2
  (w2.subscribers.size, w2)

/-- Models `broadcastMessage(message)`. -/
def broadcastMessage (env : Env) (message : String) (w : World) : Nat × World :=
  broadcast env message none w

/-- Models `broadcastMessageWithButtons(message, inlineKeyboard)`. -/
def broadcastMessageWithButtons (env : Env) (message : String) (inlineKeyboard : InlineKeyboard)
    (w : World) : Nat × World :=
  broadcast env message (some inlineKeyboard) w

/-! ## The check cycle (bot.js 144-208) -/

/-- Models `fetchSymbols()`: the symbols of the response, or `null` (here `none`) when the request
throws, the code is not 200 or `order_book_details` is missing.  An empty array is truthy. -/
def fetchSymbols (env : Env) : Option (List Symbol) :=
  match env.get with
  | .networkError => none
  | .response code order_book_details =>
    match order_book_details with
    | some details => if code = 200 then some (details.map (fun item => item.symbol)) else none
    | none => none

/-- The notification text of bot.js 184. -/
def newSymbolsMessage (newSymbols : List Symbol) (size : Nat) : String :=
  "🚨 New assets listed on zklighter!\n\n" ++
    "\n".intercalate (newSymbols.map (fun s => "• " ++ s)) ++
    "\n\nTotal assets: " ++ toString size

/-- The inline keyboard of bot.js 187-194: one row of one button per new symbol. -/
def newSymbolsKeyboard (newSymbols : List Symbol) : InlineKeyboard :=
  { inline_keyboard := newSymbols.map (fun symbol =>
      [{ text := "🔗 TRADE " ++ symbol, url := "https://app.lighter.xyz/trade/" ++ symbol }]) }

/-- Models `checkForNewSymbols()` with the callee of bot.js 197 as a parameter: the callee may
return a count or throw (`Except`), and in both cases hands back the world it left.  The
`try`/`catch` of bot.js 196-201 only logs, so either result is followed by
`saveSymbols()`. -/
def checkForNewSymbolsWith
    (callee : String → InlineKeyboard → World → Except String Nat × World)
    (env : Env) (w : World) : World :=
  match fetchSymbols env with
  | none => w
  | some apiSymbols =>
    let r := diffLoop apiSymbols w.currentSymbols
    let newSymbols := r.1
    let w1 := { w with currentSymbols := r.2 }
    if newSymbols.length > 0 then
      let message := newSymbolsMessage newSymbols w1.currentSymbols.size
      let inlineKeyboard := newSymbolsKeyboard newSymbols
      let w2 := (callee message inlineKeyboard w1).2
      saveSymbols env w2
    else
      w1

/-- Models `checkForNewSymbols()`: the callee is `broadcastMessageWithButtons`, which returns. -/
def checkForNewSymbols (env : Env) (w : World) : World :=
  checkForNewSymbolsWith
    (fun message inlineKeyboard w1 =>
      ((Except.ok (broadcastMessageWithButtons env message inlineKeyboard w1).1),
        (broadcastMessageWithButtons env message inlineKeyboard w1).2))
    env w

/-! ## The `/symbols` handler (bot.js 243-259) -/

/-- The UTF-16 code units of a string, the sequence `Array.prototype.sort` compares. -/
def utf16 (s : String) : List Nat :=
  s.data.flatMap (fun c =>
    if c.toNat < 65536 then [c.toNat]
    else [55296 + (c.toNat - 65536) / 1024, 56320 + (c.toNat - 65536) % 1024])

/-- The default order of `Array.prototype.sort()`: lexicographic on UTF-16 code units. -/
def jsLe (a b : String) : Prop := utf16 a ≤ utf16 b

instance jsLeDecidable : DecidableRel jsLe := fun a b =>
  inferInstanceAs (Decidable (utf16 a ≤ utf16 b))

instance jsLe_total : IsTotal Symbol jsLe := ⟨fun a b => le_total (utf16 a) (utf16 b)⟩

instance jsLe_trans : IsTrans Symbol jsLe :=
  ⟨fun _ _ _ h1 h2 => @le_trans (List Nat) _ _ _ _ h1 h2⟩

/-- Models `array.sort()` on an array of strings. -/
def sort (xs : List Symbol) : List Symbol := xs.insertionSort jsLe

/-- Models `array.slice(start, end)` for `start ≤ end`. -/
def slice (xs : List Symbol) (start stop : Nat) : List Symbol :=
  (xs.drop start).take (stop - start)

/-- Models `chunkSize` of bot.js 253. -/
def chunkSize : Nat := 50

/-- The text of bot.js 256 for the chunk that starts at index `i`. -/
def symbolsMessage (symbols : List Symbol) (i : Nat) : String :=
  "📋 Symbols (" ++ toString (i + 1) ++ "-" ++ toString (min (i + chunkSize) symbols.length) ++
    " of " ++ toString symbols.length ++ "):\n\n" ++
    ", ".intercalate (slice symbols i (i + chunkSize))

/-- The loop `for (let i = 0; i < symbols.length; i += chunkSize)`; a send that throws is
not caught and ends the handler.  `fuel` bounds the number of turns. -/
def sendChunks (env : Env) (chatId : ChatId) (symbols : List Symbol) :
    Nat → Nat → World → Except DeliveryError Unit × World
  | 0, _, w => (.ok (), w)
  | fuel + 1, i, w =>
    if i < symbols.length then
      match sendMessage env chatId (symbolsMessage symbols i) none w with
      | (.ok _, w1) => sendChunks env chatId symbols fuel (i + chunkSize) w1
      | (.error e, w1) => (.error e, w1)
    else (.ok (), w)

/-- The handler of `/symbols` for a message from `chatId`.  The loop makes at most
`symbols.length` turns, so that much fuel never runs out. -/
def onSymbols (env : Env) (chatId : ChatId) (w : World) : Except DeliveryError Unit × World :=
  let symbols := sort w.currentSymbols.toArray
  if symbols.length = 0 then
    sendMessage env chatId "No symbols loaded yet. Please wait for the first check." none w
  else
    sendChunks env chatId symbols symbols.length 0 w

/-! ## Scenarios of section 8 of the specification -/

/-- An environment in which every external call succeeds and the listing endpoint
answers with the given symbols. -/
def healthyEnv (symbols : List Symbol) : Env :=
  { get := HttpResult.response 200 (some (symbols.map (fun s => { symbol := s })))
    send := fun _ _ _ => Except.ok ()
    writable := fun _ => true }

/-- Scenario A: the known set is {BTC, ETH}; one recipient is subscribed. -/
def scenarioA : World :=
  { currentSymbols := JSSet.ofArray ["BTC", "ETH"]
    subscribers := JSSet.ofArray [1001]
    symbolsFile := some ["BTC", "ETH"]
    subscribersFile := some [1001]
    calls := [] }

/-- Scenario B: the request to the listing endpoint throws. -/
def scenarioB : Env :=
  { healthyEnv [] with get := HttpResult.networkError }

/-- Scenario C: two recipients are subscribed. -/
def scenarioC : World :=
  { scenarioA with subscribers := JSSet.ofArray [1001, 1002], subscribersFile := some [1001, 1002] }

/-- An environment in which every delivery to `chatId` is rejected with `e`. -/
def failingFor (chatId : ChatId) (e : DeliveryError) : Env :=
  { healthyEnv ["BTC", "ETH", "SOL"] with
    send := fun c _ _ => if c = chatId then Except.error e else Except.ok () }

/-- A callee for bot.js 197 that throws at once. -/
def throwingCallee (_message : String) (_inlineKeyboard : InlineKeyboard) (w : World) :
    Except String Nat × World :=
  (Except.error "broadcast failed", w)

/-! ## Lemmas on `JSSet` -/

namespace JSSet

variable {α : Type} [DecidableEq α]

theorem ext_elems {s t : JSSet α} (h : s.elems = t.elems) : s = t := by
  cases s; cases t; cases h; rfl

@[simp] theorem has_iff (s : JSSet α) (x : α) : s.has x = true ↔ x ∈ s.elems := by
  simp [has]

theorem has_eq_false_iff (s : JSSet α) (x : α) : s.has x = false ↔ x ∉ s.elems := by
  simp [has]

theorem add_of_mem {s : JSSet α} {x : α} (h : x ∈ s.elems) : s.add x = s := by
  simp [add, h]

theorem elems_add_of_not_mem {s : JSSet α} {x : α} (h : x ∉ s.elems) :
    (s.add x).elems = s.elems ++ [x] := by
  simp [add, h]

theorem mem_add (s : JSSet α) (x y : α) : y ∈ (s.add x).elems ↔ y ∈ s.elems ∨ y = x := by
  by_cases h : x ∈ s.elems
  · rw [add_of_mem h]
    constructor
    · exact Or.inl
    · rintro (h1 | rfl)
      · exact h1
      · exact h
  · rw [elems_add_of_not_mem h]; simp

theorem elems_delete (s : JSSet α) (x : α) :
    (s.delete x).elems = s.elems.filter (fun y => decide (y ≠ x)) := by
  show s.elems.erase x = _
  rw [s.nodup.erase_eq_filter]
  congr 1
  funext y
  by_cases h : y = x <;> simp [h]

theorem mem_delete (s : JSSet α) (x y : α) :
    y ∈ (s.delete x).elems ↔ y ∈ s.elems ∧ y ≠ x := by
  rw [elems_delete]; simp

theorem delete_of_not_mem {s : JSSet α} {x : α} (h : x ∉ s.elems) : s.delete x = s :=
  ext_elems (List.erase_of_not_mem h)

end JSSet

/-! ## Lemmas on the diff loop -/

theorem diffStep_of_mem {acc : List Symbol × JSSet Symbol} {x : Symbol} (h : x ∈ acc.2.elems) :
    diffStep acc x = acc := by
  simp [diffStep, h]

theorem diffStep_of_not_mem {acc : List Symbol × JSSet Symbol} {x : Symbol}
    (h : x ∉ acc.2.elems) : diffStep acc x = (acc.1 ++ [x], acc.2.add x) := by
  simp [diffStep, h]

/-- Membership in the known set after the loop started from any accumulator. -/
theorem mem_foldl_diffStep (S : List Symbol) (acc : List Symbol × JSSet Symbol) (x : Symbol) :
    x ∈ (S.foldl diffStep acc).2.elems ↔ x ∈ acc.2.elems ∨ x ∈ S := by
  induction S generalizing acc with
  | nil => simp
  | cons a S ih =>
    rw [List.foldl_cons, ih]
    by_cases h : a ∈ acc.2.elems
    · rw [diffStep_of_mem h]
      constructor
      · rintro (h1 | h1)
        · exact Or.inl h1
        · exact Or.inr (List.mem_cons_of_mem _ h1)
      · rintro (h1 | h1)
        · exact Or.inl h1
        · rcases List.mem_cons.mp h1 with rfl | h2
          · exact Or.inl h
          · exact Or.inr h2
    · rw [diffStep_of_not_mem h]
      simp only [JSSet.mem_add, List.mem_cons]
      tauto

/-- A loop over identifiers that are all known changes nothing. -/
theorem foldl_diffStep_of_subset (S : List Symbol) (acc : List Symbol × JSSet Symbol)
    (h : S ⊆ acc.2.elems) : S.foldl diffStep acc = acc := by
  induction S with
  | nil => rfl
  | cons a S ih =>
    have ha : a ∈ acc.2.elems := h (List.mem_cons_self a S)
    rw [List.foldl_cons, diffStep_of_mem ha]
    exact ih (fun y hy => h (List.mem_cons_of_mem a hy))

/-- The batch built by the loop, as the library's first-occurrence deduplication of the
identifiers the initial known set `K` lacks. -/
theorem foldl_diffStep_fst (K : JSSet Symbol) (S : List Symbol)
    (acc : List Symbol × JSSet Symbol)
    (hacc : ∀ x, x ∈ acc.2.elems ↔ x ∈ K.elems ∨ x ∈ acc.1) :
    (S.foldl diffStep acc).1 =
      List.eraseDups.loop (S.filter (fun x => !K.has x)) acc.1.reverse := by
  induction S generalizing acc with
  | nil => simp [List.eraseDups.loop]
  | cons a S ih =>
    rw [List.foldl_cons]
    by_cases h : a ∈ acc.2.elems
    · rw [diffStep_of_mem h, ih acc hacc]
      by_cases hK : a ∈ K.elems
      · have : (!K.has a) = false := by simp [hK]
        rw [List.filter_cons, this]; simp
      · have hnew : a ∈ acc.1 := ((hacc a).mp h).resolve_left hK
        have : (!K.has a) = true := by simp [JSSet.has_eq_false_iff, hK]
        rw [List.filter_cons, this]
        simp [List.eraseDups.loop, hnew]
    · have hK : a ∉ K.elems := fun hk => h ((hacc a).mpr (Or.inl hk))
      have hnew : a ∉ acc.1 := fun hn => h ((hacc a).mpr (Or.inr hn))
      rw [diffStep_of_not_mem h, ih]
      · have : (!K.has a) = true := by simp [JSSet.has_eq_false_iff, hK]
        rw [List.filter_cons, this]
        simp [List.eraseDups.loop, hnew]
      · intro x
        simp only [JSSet.mem_add, List.mem_append, List.mem_singleton, hacc x]
        tauto

theorem eraseDups_loop_of_nodup (l acc : List Symbol) (hl : l.Nodup)
    (hd : ∀ x, x ∈ l → x ∉ acc) : List.eraseDups.loop l acc = acc.reverse ++ l := by
  induction l generalizing acc with
  | nil => simp [List.eraseDups.loop]
  | cons a l ih =>
    have ha : a ∉ acc := hd a (List.mem_cons_self a l)
    have hl2 := List.nodup_cons.mp hl
    have step : List.eraseDups.loop (a :: l) acc = List.eraseDups.loop l (a :: acc) := by
      simp [List.eraseDups.loop, ha]
    rw [step, ih (a :: acc) hl2.2]
    · simp
    · intro x hx hmem
      rcases List.mem_cons.mp hmem with rfl | h1
      · exact hl2.1 hx
      · exact hd x (List.mem_cons_of_mem a hx) h1

theorem diffLoop_fst_eq (S : List Symbol) (K : JSSet Symbol) :
    (diffLoop S K).1 = (S.filter (fun x => !K.has x)).eraseDups := by
  have h := foldl_diffStep_fst K S ([], K) (by intro x; simp)
  simpa [diffLoop, List.eraseDups] using h

/-- For a snapshot without repeated identifiers the batch is the plain filter. -/
theorem diffLoop_fst_of_nodup (S : List Symbol) (K : JSSet Symbol) (hS : S.Nodup) :
    (diffLoop S K).1 = S.filter (fun x => !K.has x) := by
  rw [diffLoop_fst_eq, List.eraseDups, eraseDups_loop_of_nodup _ _ (hS.filter _)]
  · simp
  · intro x _ hx; simp at hx

theorem mem_diffLoop_snd (S : List Symbol) (K : JSSet Symbol) (x : Symbol) :
    x ∈ (diffLoop S K).2.elems ↔ x ∈ K.elems ∨ x ∈ S := by
  simpa [diffLoop] using mem_foldl_diffStep S ([], K) x

theorem diffLoop_of_subset (S : List Symbol) (K : JSSet Symbol) (h : S ⊆ K.elems) :
    diffLoop S K = ([], K) :=
  foldl_diffStep_of_subset S ([], K) h

/-- The batch is empty exactly when every identifier of the snapshot is known. -/
theorem diffLoop_fst_eq_nil_iff (S : List Symbol) (K : JSSet Symbol) :
    (diffLoop S K).1 = [] ↔ S ⊆ K.elems := by
  constructor
  · intro h
    have key : ∀ (S : List Symbol) (acc : List Symbol × JSSet Symbol),
        (S.foldl diffStep acc).1 = [] → acc.1 = [] ∧ S ⊆ acc.2.elems := by
      intro S
      induction S with
      | nil => intro acc h; exact ⟨h, List.nil_subset _⟩
      | cons a S ih =>
        intro acc h
        rw [List.foldl_cons] at h
        by_cases ha : a ∈ acc.2.elems
        · rw [diffStep_of_mem ha] at h
          have h2 := ih acc h
          exact ⟨h2.1, List.cons_subset.mpr ⟨ha, h2.2⟩⟩
        · rw [diffStep_of_not_mem ha] at h
          have h2 := ih _ h
          simp at h2
    exact (key S ([], K) h).2
  · intro h
    rw [diffLoop_of_subset S K h]

/-! ## Lemmas on the broadcast -/

theorem foldl_broadcastStep (env : Env) (message : String) (rm : Option InlineKeyboard)
    (R : List ChatId) (failed : List ChatId) (w : World) :
    R.foldl (broadcastStep env message rm) (failed, w) =
      (failed ++ R.filter (fun c => !delivered (env.send c message rm)),
        { w with calls := w.calls ++ R.map (fun c => Event.sendMessage c message rm) }) := by
  induction R generalizing failed w with
  | nil => simp
  | cons c R ih =>
    rw [List.foldl_cons]
    cases hs : env.send c message rm with
    | ok u =>
      have : broadcastStep env message rm (failed, w) c =
          (failed, { w with calls := w.calls ++ [Event.sendMessage c message rm] }) := by
        simp [broadcastStep, sendMessage, hs]
      rw [this, ih]
      simp [List.filter_cons, hs, delivered]
    | error e =>
      have : broadcastStep env message rm (failed, w) c =
          (failed ++ [c], { w with calls := w.calls ++ [Event.sendMessage c message rm] }) := by
        simp [broadcastStep, sendMessage, hs]
      rw [this, ih]
      simp [List.filter_cons, hs, delivered]

theorem removeSubscriber_of_mem (env : Env) (c : ChatId) (w : World)
    (h : c ∈ w.subscribers.elems) :
    removeSubscriber env c w =
      (true, saveSubscribers env { w with subscribers := w.subscribers.delete c }) := by
  simp [removeSubscriber, h]

theorem removeSubscriber_of_not_mem (env : Env) (c : ChatId) (w : World)
    (h : c ∉ w.subscribers.elems) : removeSubscriber env c w = (false, w) := by
  simp [removeSubscriber, h]

theorem addSubscriber_of_mem (env : Env) (c : ChatId) (w : World)
    (h : c ∈ w.subscribers.elems) : addSubscriber env c w = (false, w) := by
  simp [addSubscriber, h]

theorem addSubscriber_of_not_mem (env : Env) (c : ChatId) (w : World)
    (h : c ∉ w.subscribers.elems) :
    addSubscriber env c w =
      (true, saveSubscribers env { w with subscribers := w.subscribers.add c }) := by
  simp [addSubscriber, h]

@[simp] theorem saveSubscribers_subscribers (env : Env) (w : World) :
    (saveSubscribers env w).subscribers = w.subscribers := by
  unfold saveSubscribers; split <;> rfl

@[simp] theorem saveSubscribers_calls (env : Env) (w : World) :
    (saveSubscribers env w).calls = w.calls ++ [Event.writeSubscribers w.subscribers.elems] := by
  unfold saveSubscribers; split <;> rfl

@[simp] theorem saveSubscribers_currentSymbols (env : Env) (w : World) :
    (saveSubscribers env w).currentSymbols = w.currentSymbols := by
  unfold saveSubscribers; split <;> rfl

@[simp] theorem saveSubscribers_symbolsFile (env : Env) (w : World) :
    (saveSubscribers env w).symbolsFile = w.symbolsFile := by
  unfold saveSubscribers; split <;> rfl

theorem saveSubscribers_subscribersFile (env : Env) (w : World) :
    (saveSubscribers env w).subscribersFile =
      if env.writable File.subscribers then some w.subscribers.elems else w.subscribersFile := by
  unfold saveSubscribers; split <;> rfl

theorem inits_eq_nil_cons_tail (l : List ChatId) : l.inits = [] :: l.inits.tail := by
  cases l <;> simp

theorem filter_not_mem_cons (R : List ChatId) (c : ChatId) (removed : List ChatId) :
    R.filter (fun x => decide (x ∉ c :: removed)) =
      (R.filter (fun x => decide (x ≠ c))).filter (fun x => decide (x ∉ removed)) := by
  rw [List.filter_filter]
  apply List.filter_congr
  intro x _
  by_cases h1 : x = c <;> by_cases h2 : x ∈ removed <;> simp [h1, h2]

/-- The effect of `failedChats.forEach(chatId => removeSubscriber(chatId))` when the failed
chats are distinct subscribers. -/
theorem foldl_removeSubscriber (env : Env) (fs : List ChatId) (w : World) (hnd : fs.Nodup)
    (hsub : fs ⊆ w.subscribers.elems) :
    (fs.foldl (fun w1 c => (removeSubscriber env c w1).2) w).subscribers.elems =
        w.subscribers.elems.filter (fun x => decide (x ∉ fs)) ∧
      (fs.foldl (fun w1 c => (removeSubscriber env c w1).2) w).calls =
        w.calls ++ fs.inits.tail.map (fun removed =>
          Event.writeSubscribers (w.subscribers.elems.filter (fun x => decide (x ∉ removed)))) ∧
      (fs.foldl (fun w1 c => (removeSubscriber env c w1).2) w).subscribersFile =
        (if fs = [] then w.subscribersFile
         else if env.writable File.subscribers then
           some (w.subscribers.elems.filter (fun x => decide (x ∉ fs)))
         else w.subscribersFile) ∧
      (fs.foldl (fun w1 c => (removeSubscriber env c w1).2) w).currentSymbols =
        w.currentSymbols ∧
      (fs.foldl (fun w1 c => (removeSubscriber env c w1).2) w).symbolsFile = w.symbolsFile := by
  induction fs generalizing w with
  | nil => simp
  | cons c fs ih =>
    have hc : c ∈ w.subscribers.elems := hsub (List.mem_cons_self c fs)
    have hnd2 := List.nodup_cons.mp hnd
    rw [List.foldl_cons, removeSubscriber_of_mem env c w hc]
    have hsub2 : fs ⊆ (saveSubscribers env
        { w with subscribers := w.subscribers.delete c }).subscribers.elems := by
      intro x hx
      rw [saveSubscribers_subscribers]
      show x ∈ (w.subscribers.delete c).elems
      rw [JSSet.mem_delete]
      refine ⟨hsub (List.mem_cons_of_mem c hx), ?_⟩
      rintro rfl
      exact hnd2.1 hx
    obtain ⟨h1, h2, h3, h4, h5⟩ := ih _ hnd2.2 hsub2
    have hel : (saveSubscribers env
        { w with subscribers := w.subscribers.delete c }).subscribers.elems =
        w.subscribers.elems.filter (fun x => decide (x ≠ c)) := by
      rw [saveSubscribers_subscribers]
      exact JSSet.elems_delete w.subscribers c
    rw [hel] at h1 h2 h3
    refine ⟨?_, ?_, ?_, ?_, ?_⟩
    · rw [h1, filter_not_mem_cons]
    · rw [h2, saveSubscribers_calls, List.inits_cons, List.tail_cons,
        inits_eq_nil_cons_tail fs]
      simp only [List.map_cons, List.map_map, List.append_assoc, List.singleton_append]
      congr 2
      · show Event.writeSubscribers (w.subscribers.delete c).elems = _
        rw [JSSet.elems_delete]
        congr 1
        apply List.filter_congr
        intro x _
        simp
      · apply List.map_congr_left
        intro removed _
        simp only [Function.comp]
        rw [filter_not_mem_cons]
    · rw [h3]
      simp only [List.cons_ne_nil, if_false, not_false_eq_true]
      by_cases hfs : fs = []
      · subst hfs
        simp only [if_true]
        rw [saveSubscribers_subscribersFile]
        split
        · show some (w.subscribers.delete c).elems = _
          rw [JSSet.elems_delete]
          congr 1
          apply List.filter_congr
          intro x _
          simp
        · rfl
      · simp only [hfs, if_false]
        split
        · rw [filter_not_mem_cons]
        · rw [saveSubscribers_subscribersFile]
          simp [*]
    · rw [h4]; simp
    · rw [h5]; simp

theorem filter_not_mem_failed (R : List ChatId) (p : ChatId → Bool) :
    R.filter (fun x => decide (x ∉ R.filter (fun c => !p c))) = R.filter p := by
  apply List.filter_congr
  intro x hx
  cases hp : p x <;> simp [hx, hp]

/-- What one broadcast does to the world, for every outcome of every delivery. -/
theorem broadcast_spec (env : Env) (message : String) (rm : Option InlineKeyboard) (w : World) :
    (broadcast env message rm w).2.subscribers.elems =
        w.subscribers.elems.filter (fun c => delivered (env.send c message rm)) ∧
      (broadcast env message rm w).1 =
        (w.subscribers.elems.filter (fun c => delivered (env.send c message rm))).length ∧
      (broadcast env message rm w).2.calls =
        w.calls ++ w.subscribers.elems.map (fun c => Event.sendMessage c message rm) ++
          (w.subscribers.elems.filter (fun c => !delivered (env.send c message rm))).inits.tail.map
            (fun removed => Event.writeSubscribers
              (w.subscribers.elems.filter (fun x => decide (x ∉ removed)))) ∧
      (broadcast env message rm w).2.subscribersFile =
        (if w.subscribers.elems.filter (fun c => !delivered (env.send c message rm)) = [] then
           w.subscribersFile
         else if env.writable File.subscribers then
           some (w.subscribers.elems.filter (fun c => delivered (env.send c message rm)))
         else w.subscribersFile) ∧
      (broadcast env message rm w).2.currentSymbols = w.currentSymbols ∧
      (broadcast env message rm w).2.symbolsFile = w.symbolsFile := by
  have hw2 : (broadcast env message rm w).2 =
      (w.subscribers.elems.filter (fun c => !delivered (env.send c message rm))).foldl
        (fun w1 c => (removeSubscriber env c w1).2)
        { w with calls := w.calls ++
            w.subscribers.elems.map (fun c => Event.sendMessage c message rm) } := by
    simp only [broadcast, JSSet.toArray, foldl_broadcastStep, List.nil_append]
    split
    · rfl
    · rename_i h
      have : w.subscribers.elems.filter (fun c => !delivered (env.send c message rm)) = [] := by
        rw [← List.length_eq_zero]; omega
      rw [this]; rfl
  have h1 : (broadcast env message rm w).1 = (broadcast env message rm w).2.subscribers.size := rfl
  obtain ⟨a1, a2, a3, a4, a5⟩ := foldl_removeSubscriber env
    (w.subscribers.elems.filter (fun c => !delivered (env.send c message rm)))
    { w with calls := w.calls ++
        w.subscribers.elems.map (fun c => Event.sendMessage c message rm) }
    (w.subscribers.nodup.filter _) (fun x hx => (List.mem_filter.mp hx).1)
  simp only [filter_not_mem_failed] at a1 a3
  rw [h1, JSSet.size, hw2]
  exact ⟨a1, congrArg List.length a1, a2, a3, a4, a5⟩

/-! ## Lemmas on the check cycle -/

@[simp] theorem saveSymbols_calls (env : Env) (w : World) :
    (saveSymbols env w).calls = w.calls ++ [Event.writeSymbols w.currentSymbols.elems] := by
  unfold saveSymbols; split <;> rfl

@[simp] theorem saveSymbols_currentSymbols (env : Env) (w : World) :
    (saveSymbols env w).currentSymbols = w.currentSymbols := by
  unfold saveSymbols; split <;> rfl

@[simp] theorem saveSymbols_subscribers (env : Env) (w : World) :
    (saveSymbols env w).subscribers = w.subscribers := by
  unfold saveSymbols; split <;> rfl

theorem saveSymbols_symbolsFile (env : Env) (w : World) :
    (saveSymbols env w).symbolsFile =
      if env.writable File.symbols then some w.currentSymbols.elems else w.symbolsFile := by
  unfold saveSymbols; split <;> rfl

theorem checkForNewSymbolsWith_of_new
    (callee : String → InlineKeyboard → World → Except String Nat × World)
    (env : Env) (w : World) (S : List Symbol) (hf : fetchSymbols env = some S)
    (hN : (diffLoop S w.currentSymbols).1 ≠ []) :
    checkForNewSymbolsWith callee env w =
      saveSymbols env
        (callee
          (newSymbolsMessage (diffLoop S w.currentSymbols).1 (diffLoop S w.currentSymbols).2.size)
          (newSymbolsKeyboard (diffLoop S w.currentSymbols).1)
          { w with currentSymbols := (diffLoop S w.currentSymbols).2 }).2 := by
  have hlen : (diffLoop S w.currentSymbols).1.length > 0 := List.length_pos.mpr hN
  simp only [checkForNewSymbolsWith, hf]
  rw [if_pos hlen]

theorem checkForNewSymbolsWith_of_none
    (callee : String → InlineKeyboard → World → Except String Nat × World)
    (env : Env) (w : World) (S : List Symbol) (hf : fetchSymbols env = some S)
    (hN : (diffLoop S w.currentSymbols).1 = []) :
    checkForNewSymbolsWith callee env w = w := by
  have hsub := (diffLoop_fst_eq_nil_iff S w.currentSymbols).mp hN
  simp only [checkForNewSymbolsWith, hf]
  rw [diffLoop_of_subset S w.currentSymbols hsub]
  simp

theorem size_diffLoop_snd (S : List Symbol) (K : JSSet Symbol) :
    (diffLoop S K).2.size = (K.elems.toFinset ∪ S.toFinset).card := by
  rw [JSSet.size, ← List.toFinset_card_of_nodup (diffLoop S K).2.nodup]
  congr 1
  ext x
  simp [mem_diffLoop_snd]

/-! ## Lemmas on the `/symbols` handler -/

theorem sort_sorted (xs : List Symbol) : List.Sorted jsLe (sort xs) :=
  List.sorted_insertionSort jsLe xs

theorem sort_perm (xs : List Symbol) : (sort xs).Perm xs :=
  List.perm_insertionSort jsLe xs

theorem world_calls_append_nil (w : World) : { w with calls := w.calls ++ [] } = w := by
  cases w; simp

/-- With every delivery to `chatId` accepted and fuel for the turns that remain, the loop
sends one message per chunk start `i, i + 50, ...` below `symbols.length`. -/
theorem sendChunks_of_delivered (env : Env) (chatId : ChatId) (symbols : List Symbol)
    (hok : ∀ t, env.send chatId t none = Except.ok ()) :
    ∀ (fuel i : Nat) (w : World), symbols.length ≤ i + 50 * fuel →
      sendChunks env chatId symbols fuel i w =
        (Except.ok (), { w with calls := w.calls ++
          (List.range ((symbols.length - i + 49) / 50)).map (fun k =>
            Event.sendMessage chatId (symbolsMessage symbols (i + 50 * k)) none) }) := by
  intro fuel
  induction fuel with
  | zero =>
    intro i w h
    have hk : (symbols.length - i + 49) / 50 = 0 := by omega
    rw [hk]
    simp [sendChunks, world_calls_append_nil]
  | succ fuel ih =>
    intro i w h
    by_cases hi : i < symbols.length
    · have hk : (symbols.length - i + 49) / 50 = (symbols.length - (i + 50) + 49) / 50 + 1 := by
        omega
      have hstep : sendChunks env chatId symbols (fuel + 1) i w =
          sendChunks env chatId symbols fuel (i + 50)
            { w with calls := w.calls ++
              [Event.sendMessage chatId (symbolsMessage symbols i) none] } := by
        simp [sendChunks, hi, sendMessage, hok, chunkSize]
      rw [hstep, ih (i + 50) _ (by omega), hk, List.range_succ_eq_map]
      simp only [List.map_cons, List.map_map, List.append_assoc, List.singleton_append,
        Nat.mul_zero, Nat.add_zero]
      congr 4
      apply List.map_congr_left
      intro k _
      simp only [Function.comp, Nat.succ_eq_add_one]
      congr 2
      omega
    · have hk : (symbols.length - i + 49) / 50 = 0 := by omega
      rw [hk]
      simp [sendChunks, hi, world_calls_append_nil]

theorem slice_zero (l : List Symbol) (c : Nat) : slice l 0 c = l.take c := by
  simp [slice]

theorem slice_drop (l : List Symbol) (a b c : Nat) :
    slice (l.drop c) a b = slice l (c + a) (c + b) := by
  simp only [slice, List.drop_drop]
  congr 1
  omega

/-- Consecutive slices of width 50 that cover the list concatenate to the list. -/
theorem flatten_slices (m : Nat) : ∀ l : List Symbol, l.length ≤ 50 * m →
    ((List.range m).map (fun k => slice l (50 * k) (50 * k + 50))).flatten = l := by
  induction m with
  | zero =>
    intro l h
    have : l = [] := List.length_eq_zero.mp (by omega)
    simp [this]
  | succ m ih =>
    intro l h
    rw [List.range_succ_eq_map]
    simp only [List.map_cons, List.map_map, List.flatten_cons, Nat.mul_zero, Nat.zero_add]
    have hrest : (List.range m).map
        ((fun k => slice l (50 * k) (50 * k + 50)) ∘ Nat.succ) =
        (List.range m).map (fun k => slice (l.drop 50) (50 * k) (50 * k + 50)) := by
      apply List.map_congr_left
      intro k _
      simp only [Function.comp, Nat.succ_eq_add_one, slice_drop]
      congr 1 <;> omega
    rw [hrest, ih (l.drop 50) (by rw [List.length_drop]; omega), slice_zero]
    exact List.take_append_drop 50 l

theorem length_slice (l : List Symbol) (k : Nat) :
    (slice l (50 * k) (50 * k + 50)).length = min 50 (l.length - 50 * k) := by
  simp [slice, List.length_take, List.length_drop]

/-! ## The claims -/

/-- C1, as the code has it: for every snapshot `S` and known set `K` the new-item batch is
the sequence of identifiers of `S` absent from `K`, in the order of `S`, each identifier
listed once at its first occurrence. -/
theorem diffLoop_newItems (S : List Symbol) (K : JSSet Symbol) :
    (diffLoop S K).1 = (S.filter (fun x => !K.has x)).eraseDups :=
  diffLoop_fst_eq S K

/-- C1, as stated, fails on a snapshot that repeats an unknown identifier: the batch lists
it once, `S` minus `K` lists it twice. -/
theorem repeated_identifier_listed_once :
    (diffLoop ["SOL", "SOL"] JSSet.empty).1 = ["SOL"] ∧
      ["SOL", "SOL"].filter (fun x => !(JSSet.empty : JSSet Symbol).has x) = ["SOL", "SOL"] ∧
      (diffLoop ["SOL", "SOL"] JSSet.empty).1 ≠
        ["SOL", "SOL"].filter (fun x => !(JSSet.empty : JSSet Symbol).has x) := by
  decide

/-- C2: after the diff loop the known set contains every identifier of `K` and every
identifier of the snapshot `S`. -/
theorem diffLoop_known_superset (S : List Symbol) (K : JSSet Symbol) :
    K.elems ⊆ (diffLoop S K).2.elems ∧ S ⊆ (diffLoop S K).2.elems :=
  ⟨fun x hx => (mem_diffLoop_snd S K x).mpr (Or.inl hx),
    fun x hx => (mem_diffLoop_snd S K x).mpr (Or.inr hx)⟩

/-- C3: running the diff loop again on the same snapshot, against the known set the first
run produced, gives an empty batch and the same known set. -/
theorem diffLoop_idempotent (S : List Symbol) (K : JSSet Symbol) :
    diffLoop S (diffLoop S K).2 = ([], (diffLoop S K).2) :=
  diffLoop_of_subset S (diffLoop S K).2 (fun x hx => (mem_diffLoop_snd S K x).mpr (Or.inr hx))

/-- C4: `fetchSymbols` returns `null` exactly on a network error, a code other than 200 or
a missing `order_book_details`; then `checkForNewSymbols` leaves the whole world as it was
(known set, both files, recipients, and no call made).  An empty listing fetched with
success is `[]`, not `null`. -/
theorem checkForNewSymbols_fetch_failure (env : Env) (w : World) :
    (fetchSymbols env = none ↔
        (env.get = HttpResult.networkError ∨
          ∃ code details, env.get = HttpResult.response code details ∧
            (code ≠ 200 ∨ details = none))) ∧
      (fetchSymbols env = none → checkForNewSymbols env w = w) ∧
      (env.get = HttpResult.response 200 (some []) → fetchSymbols env = some []) := by
  refine ⟨?_, ?_, ?_⟩
  · unfold fetchSymbols
    cases hg : env.get with
    | networkError => simp
    | response code details =>
      cases details with
      | none =>
        simp only [true_iff]
        exact Or.inr ⟨code, none, rfl, Or.inr rfl⟩
      | some d =>
        by_cases hc : code = 200
        · simp [hc]
        · simp only [hc, if_false, true_iff]
          exact Or.inr ⟨code, some d, rfl, Or.inl hc⟩
  · intro h
    simp [checkForNewSymbols, checkForNewSymbolsWith, h]
  · intro h
    simp [fetchSymbols, h]

/-- Scenario B: the request throws, and the cycle changes nothing. -/
theorem checkForNewSymbols_fetch_failure_witness :
    fetchSymbols scenarioB = none ∧ checkForNewSymbols scenarioB scenarioC = scenarioC :=
  ⟨rfl, (checkForNewSymbols_fetch_failure scenarioB scenarioC).2.1 rfl⟩

/-- C5: `broadcastMessageWithButtons` calls `bot.sendMessage` once for each recipient, in
the order of the set, and only then writes the recipient file, once per failed recipient;
the recipients left are those whose delivery succeeded, and their number is returned.  When
a recipient was removed and the file can be written, the file holds the recipients left.
With no recipient nothing is called and 0 is returned; of two recipients of which one
fails, the other is left. -/
theorem broadcastMessageWithButtons_spec (env : Env) (message : String)
    (inlineKeyboard : InlineKeyboard) (w : World) :
    w.subscribers.elems.Nodup ∧
      (broadcastMessageWithButtons env message inlineKeyboard w).2.calls =
        w.calls ++
          w.subscribers.elems.map
            (fun c => Event.sendMessage c message (some inlineKeyboard)) ++
          (w.subscribers.elems.filter
            (fun c => !delivered (env.send c message (some inlineKeyboard)))).inits.tail.map
            (fun removed => Event.writeSubscribers
              (w.subscribers.elems.filter (fun x => decide (x ∉ removed)))) ∧
      (broadcastMessageWithButtons env message inlineKeyboard w).2.subscribers.elems =
        w.subscribers.elems.filter
          (fun c => delivered (env.send c message (some inlineKeyboard))) ∧
      (broadcastMessageWithButtons env message inlineKeyboard w).1 =
        (broadcastMessageWithButtons env message inlineKeyboard w).2.subscribers.size ∧
      (env.writable File.subscribers = true →
        (broadcastMessageWithButtons env message inlineKeyboard w).2.subscribers ≠
          w.subscribers →
        (broadcastMessageWithButtons env message inlineKeyboard w).2.subscribersFile =
          some (broadcastMessageWithButtons env message inlineKeyboard w).2.subscribers.elems) ∧
      (w.subscribers.elems = [] →
        broadcastMessageWithButtons env message inlineKeyboard w = (0, w)) ∧
      (∀ a b, w.subscribers.elems = [a, b] →
        delivered (env.send a message (some inlineKeyboard)) = true →
        delivered (env.send b message (some inlineKeyboard)) = false →
        (broadcastMessageWithButtons env message inlineKeyboard w).2.subscribers.elems = [a]) ∧
      (∀ a b, w.subscribers.elems = [a, b] →
        delivered (env.send a message (some inlineKeyboard)) = false →
        delivered (env.send b message (some inlineKeyboard)) = true →
        (broadcastMessageWithButtons env message inlineKeyboard w).2.subscribers.elems = [b]) := by
  obtain ⟨h1, h2, h3, h4, _, _⟩ := broadcast_spec env message (some inlineKeyboard) w
  refine ⟨w.subscribers.nodup, h3, h1, rfl, ?_, ?_, ?_, ?_⟩
  · intro hw hne
    have hf : w.subscribers.elems.filter
        (fun c => !delivered (env.send c message (some inlineKeyboard))) ≠ [] := by
      intro hnil
      apply hne
      apply JSSet.ext_elems
      show (broadcast env message (some inlineKeyboard) w).2.subscribers.elems = _
      rw [h1, List.filter_eq_self]
      intro c hc
      have := List.filter_eq_nil_iff.mp hnil c hc
      simpa using this
    show (broadcast env message (some inlineKeyboard) w).2.subscribersFile =
      some (broadcast env message (some inlineKeyboard) w).2.subscribers.elems
    rw [h4, h1, if_neg hf, if_pos hw]
  · intro hR
    simp [broadcastMessageWithButtons, broadcast, JSSet.toArray, JSSet.size, hR]
  · intro a b hR ha hb
    show (broadcast env message (some inlineKeyboard) w).2.subscribers.elems = [a]
    rw [h1, hR]
    simp [List.filter_cons, ha, hb]
  · intro a b hR ha hb
    show (broadcast env message (some inlineKeyboard) w).2.subscribers.elems = [b]
    rw [h1, hR]
    simp [List.filter_cons, ha, hb]

/-- Scenario C: 1001 and 1002 are subscribed and every delivery to 1002 is rejected as
permanent; 1001 alone is left, in memory and in the file, and 1 is returned. -/
theorem broadcastMessageWithButtons_spec_witness :
    (broadcastMessageWithButtons (failingFor 1002 DeliveryError.permanent) "new"
        (newSymbolsKeyboard ["SOL"]) scenarioC).2.subscribers.elems = [1001] ∧
      (broadcastMessageWithButtons (failingFor 1002 DeliveryError.permanent) "new"
        (newSymbolsKeyboard ["SOL"]) scenarioC).2.subscribersFile = some [1001] ∧
      (broadcastMessageWithButtons (failingFor 1002 DeliveryError.permanent) "new"
        (newSymbolsKeyboard ["SOL"]) scenarioC).1 = 1 := by
  have h := broadcastMessageWithButtons_spec (failingFor 1002 DeliveryError.permanent) "new"
    (newSymbolsKeyboard ["SOL"]) scenarioC
  have h1 := h.2.2.2.2.2.2.1 1001 1002 (by decide) (by decide) (by decide)
  have h2 := h.2.2.2.2.1 (by decide) (by
    intro hcon
    have hcon2 := congrArg JSSet.elems hcon
    rw [h1] at hcon2
    exact absurd hcon2 (by decide))
  refine ⟨h1, ?_, ?_⟩
  · rw [h2, h1]
  · rw [h.2.2.2.1, JSSet.size, h1]; rfl

/-- C6, as the code has it: after `broadcastMessage` and after
`broadcastMessageWithButtons` a recipient is still subscribed exactly when it was
subscribed and its delivery succeeded; a delivery rejected with any error, transient or
permanent, unsubscribes the recipient. -/
theorem broadcast_keeps_delivered_only (env : Env) (message : String)
    (inlineKeyboard : InlineKeyboard) (w : World) (c : ChatId) :
    (c ∈ (broadcastMessage env message w).2.subscribers.elems ↔
        c ∈ w.subscribers.elems ∧ env.send c message none = Except.ok ()) ∧
      (c ∈ (broadcastMessageWithButtons env message inlineKeyboard w).2.subscribers.elems ↔
        c ∈ w.subscribers.elems ∧ env.send c message (some inlineKeyboard) = Except.ok ()) ∧
      (∀ e, c ∈ w.subscribers.elems → env.send c message none = Except.error e →
        c ∉ (broadcastMessage env message w).2.subscribers.elems) ∧
      (∀ e, c ∈ w.subscribers.elems →
        env.send c message (some inlineKeyboard) = Except.error e →
        c ∉ (broadcastMessageWithButtons env message inlineKeyboard w).2.subscribers.elems) := by
  have key : ∀ rm, c ∈ (broadcast env message rm w).2.subscribers.elems ↔
      c ∈ w.subscribers.elems ∧ env.send c message rm = Except.ok () := by
    intro rm
    rw [(broadcast_spec env message rm w).1, List.mem_filter]
    cases hs : env.send c message rm <;> simp [delivered]
  refine ⟨key none, key (some inlineKeyboard), ?_, ?_⟩
  · intro e _ he hmem
    have h2 := ((key none).mp hmem).2
    rw [he] at h2
    cases h2
  · intro e _ he hmem
    have h2 := ((key (some inlineKeyboard)).mp hmem).2
    rw [he] at h2
    cases h2

/-- C6, as stated, fails: a delivery to 1002 rejected with a transient error removes 1002,
in `broadcastMessage` and in `broadcastMessageWithButtons`. -/
theorem broadcast_removes_on_transient :
    (failingFor 1002 DeliveryError.transient).send 1002 "new" none =
        Except.error DeliveryError.transient ∧
      1002 ∈ scenarioC.subscribers.elems ∧
      1002 ∉ (broadcastMessage (failingFor 1002 DeliveryError.transient) "new"
        scenarioC).2.subscribers.elems ∧
      1002 ∉ (broadcastMessageWithButtons (failingFor 1002 DeliveryError.transient) "new"
        (newSymbolsKeyboard ["SOL"]) scenarioC).2.subscribers.elems :=
  ⟨rfl, by decide, by decide, by decide⟩

/-- A recipient met by the amended C6: 1002 is subscribed, its delivery is rejected as
transient, and it is gone after the broadcast. -/
theorem broadcast_keeps_delivered_only_witness :
    1002 ∉ (broadcastMessage (failingFor 1002 DeliveryError.transient) "new"
      scenarioC).2.subscribers.elems :=
  (broadcast_keeps_delivered_only (failingFor 1002 DeliveryError.transient) "new"
    (newSymbolsKeyboard ["SOL"]) scenarioC 1002).2.2.1 DeliveryError.transient
    (by decide) rfl

/-- C7: `addSubscriber` returns true exactly when the id was absent, and a second call
returns false and changes nothing, the id being in the set once; `removeSubscriber` returns
true exactly when the id was present, and on a non-member returns false and changes
nothing.  A call that returns true calls `fs.writeFileSync` on the recipient file with the
new set, which the file then holds when the write succeeds; a call that returns false
writes nothing. -/
theorem subscribe_unsubscribe_idempotent (env : Env) (w : World) (id : ChatId) :
    ((addSubscriber env id w).1 = true ↔ id ∉ w.subscribers.elems) ∧
      (id ∉ w.subscribers.elems →
        ((addSubscriber env id w).1, (addSubscriber env id (addSubscriber env id w).2).1) =
          (true, false)) ∧
      addSubscriber env id (addSubscriber env id w).2 = (false, (addSubscriber env id w).2) ∧
      (addSubscriber env id w).2.subscribers.elems.count id = 1 ∧
      (addSubscriber env id w).2.subscribers = w.subscribers.add id ∧
      ((removeSubscriber env id w).1 = true ↔ id ∈ w.subscribers.elems) ∧
      (id ∉ w.subscribers.elems → removeSubscriber env id w = (false, w)) ∧
      (removeSubscriber env id w).2.subscribers = w.subscribers.delete id ∧
      id ∉ (removeSubscriber env id w).2.subscribers.elems ∧
      ((addSubscriber env id w).1 = true →
        (addSubscriber env id w).2.calls =
            w.calls ++ [Event.writeSubscribers (w.subscribers.add id).elems] ∧
          (env.writable File.subscribers = true →
            (addSubscriber env id w).2.subscribersFile = some (w.subscribers.add id).elems)) ∧
      ((removeSubscriber env id w).1 = true →
        (removeSubscriber env id w).2.calls =
            w.calls ++ [Event.writeSubscribers (w.subscribers.delete id).elems] ∧
          (env.writable File.subscribers = true →
            (removeSubscriber env id w).2.subscribersFile =
              some (w.subscribers.delete id).elems)) ∧
      ((addSubscriber env id w).1 = false → (addSubscriber env id w).2 = w) ∧
      ((removeSubscriber env id w).1 = false → (removeSubscriber env id w).2 = w) := by
  by_cases h : id ∈ w.subscribers.elems
  · have hadd := addSubscriber_of_mem env id w h
    have hrem := removeSubscriber_of_mem env id w h
    have hnot : id ∉ (w.subscribers.delete id).elems := by
      rw [JSSet.mem_delete]; simp
    rw [hadd, hrem]
    refine ⟨by simp [h], fun hn => absurd h hn, by simp [hadd], ?_, ?_, by simp [h],
      fun hn => absurd h hn, by simp, by simpa using hnot, by simp, ?_, by simp, by simp⟩
    · exact List.count_eq_one_of_mem w.subscribers.nodup h
    · exact (JSSet.add_of_mem h).symm
    · intro _
      refine ⟨by simp, fun hw => ?_⟩
      rw [saveSubscribers_subscribersFile, if_pos hw]
  · have hadd := addSubscriber_of_not_mem env id w h
    have hrem := removeSubscriber_of_not_mem env id w h
    have hin : id ∈ (w.subscribers.add id).elems := by
      rw [JSSet.mem_add]; exact Or.inr rfl
    have hsnd : addSubscriber env id
        (saveSubscribers env { w with subscribers := w.subscribers.add id }) =
        (false, saveSubscribers env { w with subscribers := w.subscribers.add id }) :=
      addSubscriber_of_mem env id _ (by simpa using hin)
    rw [hadd, hrem]
    refine ⟨by simp [h], fun _ => ?_, hsnd, ?_, by simp, by simp [h], fun _ => rfl,
      (JSSet.delete_of_not_mem h).symm, h, ?_, by simp, by simp, by simp⟩
    · rw [hsnd]
    · simp only [saveSubscribers_subscribers]
      exact List.count_eq_one_of_mem (w.subscribers.add id).nodup hin
    · intro _
      refine ⟨by simp, fun hw => ?_⟩
      rw [saveSubscribers_subscribersFile, if_pos hw]

/-- A new recipient 1003 in scenario C: the two calls return (true, false) and the file
holds the three recipients; unsubscribing 1004, not a member, changes nothing. -/
theorem subscribe_unsubscribe_idempotent_witness :
    ((addSubscriber (healthyEnv []) 1003 scenarioC).1,
        (addSubscriber (healthyEnv []) 1003
          (addSubscriber (healthyEnv []) 1003 scenarioC).2).1) = (true, false) ∧
      (addSubscriber (healthyEnv []) 1003 scenarioC).2.subscribersFile =
        some [1001, 1002, 1003] ∧
      removeSubscriber (healthyEnv []) 1004 scenarioC = (false, scenarioC) :=
  ⟨(subscribe_unsubscribe_idempotent (healthyEnv []) scenarioC 1003).2.1 (by decide),
    ((subscribe_unsubscribe_idempotent (healthyEnv []) scenarioC 1003).2.2.2.2.2.2.2.2.2.1
      (by decide)).2 rfl,
    (subscribe_unsubscribe_idempotent (healthyEnv []) scenarioC 1004).2.2.2.2.2.2.1
      (by decide)⟩

/-- C8: in a cycle whose fetch succeeded with a non-empty batch, `saveSymbols()` runs after
the callee of bot.js 197, whether that callee returns or throws and whatever each delivery
did: the last call made is the write of the updated known set, which the symbols file then
holds when the write succeeds.  With an empty batch the world is left as it was: no write
and no message.  Stated for any callee that does not touch `currentSymbols`, and for
`checkForNewSymbols` itself. -/
theorem checkForNewSymbols_persists
    (callee : String → InlineKeyboard → World → Except String Nat × World)
    (env : Env) (w : World) (S : List Symbol) (hf : fetchSymbols env = some S)
    (hc : ∀ m k w1, (callee m k w1).2.currentSymbols = w1.currentSymbols) :
    ((diffLoop S w.currentSymbols).1 ≠ [] →
        (checkForNewSymbolsWith callee env w).calls =
            (callee
              (newSymbolsMessage (diffLoop S w.currentSymbols).1
                (diffLoop S w.currentSymbols).2.size)
              (newSymbolsKeyboard (diffLoop S w.currentSymbols).1)
              { w with currentSymbols := (diffLoop S w.currentSymbols).2 }).2.calls ++
              [Event.writeSymbols (diffLoop S w.currentSymbols).2.elems] ∧
          (checkForNewSymbolsWith callee env w).currentSymbols =
            (diffLoop S w.currentSymbols).2 ∧
          (env.writable File.symbols = true →
            (checkForNewSymbolsWith callee env w).symbolsFile =
              some (diffLoop S w.currentSymbols).2.elems)) ∧
      ((diffLoop S w.currentSymbols).1 ≠ [] →
        (checkForNewSymbols env w).calls =
            (broadcastMessageWithButtons env
              (newSymbolsMessage (diffLoop S w.currentSymbols).1
                (diffLoop S w.currentSymbols).2.size)
              (newSymbolsKeyboard (diffLoop S w.currentSymbols).1)
              { w with currentSymbols := (diffLoop S w.currentSymbols).2 }).2.calls ++
              [Event.writeSymbols (diffLoop S w.currentSymbols).2.elems] ∧
          (checkForNewSymbols env w).currentSymbols = (diffLoop S w.currentSymbols).2 ∧
          (env.writable File.symbols = true →
            (checkForNewSymbols env w).symbolsFile =
              some (diffLoop S w.currentSymbols).2.elems)) ∧
      ((diffLoop S w.currentSymbols).1 = [] →
        checkForNewSymbolsWith callee env w = w ∧ checkForNewSymbols env w = w) := by
  refine ⟨?_, ?_, ?_⟩
  · intro hN
    rw [checkForNewSymbolsWith_of_new callee env w S hf hN]
    refine ⟨?_, ?_, ?_⟩
    · rw [saveSymbols_calls, hc]
    · rw [saveSymbols_currentSymbols, hc]
    · intro hw
      rw [saveSymbols_symbolsFile, if_pos hw, hc]
  · intro hN
    have hb : ∀ m k w1, (broadcastMessageWithButtons env m k w1).2.currentSymbols =
        w1.currentSymbols := fun m k w1 => (broadcast_spec env m (some k) w1).2.2.2.2.1
    unfold checkForNewSymbols
    rw [checkForNewSymbolsWith_of_new _ env w S hf hN]
    refine ⟨?_, ?_, ?_⟩
    · rw [saveSymbols_calls, hb]
    · rw [saveSymbols_currentSymbols, hb]
    · intro hw
      rw [saveSymbols_symbolsFile, if_pos hw, hb]
  · intro hN
    exact ⟨checkForNewSymbolsWith_of_none callee env w S hf hN,
      checkForNewSymbolsWith_of_none _ env w S hf hN⟩

/-- Scenario A with a callee that throws: SOL is saved all the same. -/
theorem checkForNewSymbols_persists_witness :
    (checkForNewSymbolsWith throwingCallee (healthyEnv ["BTC", "ETH", "SOL"])
        scenarioA).symbolsFile = some ["BTC", "ETH", "SOL"] ∧
      (checkForNewSymbolsWith throwingCallee (healthyEnv ["BTC", "ETH", "SOL"])
        scenarioA).calls = [Event.writeSymbols ["BTC", "ETH", "SOL"]] := by
  have h := (checkForNewSymbols_persists throwingCallee (healthyEnv ["BTC", "ETH", "SOL"])
    scenarioA ["BTC", "ETH", "SOL"] rfl (fun _ _ _ => rfl)).1 (by decide)
  exact ⟨(h.2.2 rfl).trans (by decide), h.1.trans (by decide)⟩

/-- C10: in a cycle with a non-empty batch `N`, every recipient is sent the same message
and keyboard before anything is written.  The message is the heading, one bullet line per
identifier of `N` in order, and as total the number of identifiers in `K ∪ S`; the keyboard
has one row of one button per identifier of `N`, in order, whose label and URL end with
that identifier. -/
theorem checkForNewSymbols_notification (env : Env) (w : World) (S : List Symbol)
    (hf : fetchSymbols env = some S) (hN : (diffLoop S w.currentSymbols).1 ≠ []) :
    (checkForNewSymbols env w).calls =
        w.calls ++
          w.subscribers.elems.map (fun c =>
            Event.sendMessage c
              (newSymbolsMessage (diffLoop S w.currentSymbols).1
                (diffLoop S w.currentSymbols).2.size)
              (some (newSymbolsKeyboard (diffLoop S w.currentSymbols).1))) ++
          (w.subscribers.elems.filter (fun c => !delivered (env.send c
              (newSymbolsMessage (diffLoop S w.currentSymbols).1
                (diffLoop S w.currentSymbols).2.size)
              (some (newSymbolsKeyboard (diffLoop S w.currentSymbols).1))))).inits.tail.map
            (fun removed => Event.writeSubscribers
              (w.subscribers.elems.filter (fun x => decide (x ∉ removed)))) ++
          [Event.writeSymbols (diffLoop S w.currentSymbols).2.elems] ∧
      newSymbolsMessage (diffLoop S w.currentSymbols).1 (diffLoop S w.currentSymbols).2.size =
        "🚨 New assets listed on zklighter!\n\n" ++
          "\n".intercalate ((diffLoop S w.currentSymbols).1.map (fun s => "• " ++ s)) ++
          "\n\nTotal assets: " ++
          toString (w.currentSymbols.elems.toFinset ∪ S.toFinset).card ∧
      (newSymbolsKeyboard (diffLoop S w.currentSymbols).1).inline_keyboard =
        (diffLoop S w.currentSymbols).1.map (fun s =>
          [{ text := "🔗 TRADE " ++ s, url := "https://app.lighter.xyz/trade/" ++ s }]) := by
  refine ⟨?_, ?_, rfl⟩
  · unfold checkForNewSymbols
    rw [checkForNewSymbolsWith_of_new _ env w S hf hN, saveSymbols_calls]
    have hb := broadcast_spec env
      (newSymbolsMessage (diffLoop S w.currentSymbols).1 (diffLoop S w.currentSymbols).2.size)
      (some (newSymbolsKeyboard (diffLoop S w.currentSymbols).1))
      { w with currentSymbols := (diffLoop S w.currentSymbols).2 }
    show (broadcast env _ _ _).2.calls ++ [Event.writeSymbols (broadcast env _ _ _).2.currentSymbols.elems] = _
    rw [hb.2.2.1, hb.2.2.2.2.1]
  · rw [size_diffLoop_snd]; rfl

/-- Scenario A: known {BTC, ETH}, snapshot [BTC, ETH, SOL]; the one recipient is sent one
message that lists SOL with total 3 and one TRADE button for SOL, then the three symbols are
saved. -/
theorem checkForNewSymbols_notification_witness :
    (diffLoop ["BTC", "ETH", "SOL"] scenarioA.currentSymbols).1 = ["SOL"] ∧
      (checkForNewSymbols (healthyEnv ["BTC", "ETH", "SOL"]) scenarioA).calls =
        [Event.sendMessage 1001
            "🚨 New assets listed on zklighter!\n\n• SOL\n\nTotal assets: 3"
            (some { inline_keyboard :=
              [[{ text := "🔗 TRADE SOL", url := "https://app.lighter.xyz/trade/SOL" }]] }),
          Event.writeSymbols ["BTC", "ETH", "SOL"]] :=
  ⟨by decide,
    (checkForNewSymbols_notification (healthyEnv ["BTC", "ETH", "SOL"]) scenarioA
      ["BTC", "ETH", "SOL"] rfl (by decide)).1.trans (by decide)⟩

/-- C9: for a non-empty known set, with `symbols` its sorted array of length `n` and every
delivery to the asking chat accepted, the `/symbols` handler completes after sending
`ceil(n / 50)` messages, the `k`-th for the chunk `symbols.slice(50 k, 50 k + 50)`.  The
array is sorted in the order of `sort()` and holds each known identifier once; the chunks
concatenate to it; each chunk has 1 to 50 items, 50 unless it is the last, and ends at
item `min(50 k + 50, n)`, the range its header reports.  For `n = 120` the sizes are
50, 50, 20. -/
theorem onSymbols_chunks (env : Env) (chatId : ChatId) (w : World) (symbols : List Symbol)
    (hs : symbols = sort w.currentSymbols.toArray)
    (hne : w.currentSymbols.elems ≠ [])
    (hok : ∀ t, env.send chatId t none = Except.ok ()) :
    List.Sorted jsLe symbols ∧ symbols.Perm w.currentSymbols.elems ∧ symbols.Nodup ∧
      (onSymbols env chatId w).1 = Except.ok () ∧
      (onSymbols env chatId w).2.calls =
        w.calls ++ (List.range ((symbols.length + 49) / 50)).map (fun k =>
          Event.sendMessage chatId (symbolsMessage symbols (50 * k)) none) ∧
      (∀ k, symbolsMessage symbols (50 * k) =
        "📋 Symbols (" ++ toString (50 * k + 1) ++ "-" ++
          toString (min (50 * k + 50) symbols.length) ++ " of " ++ toString symbols.length ++
          "):\n\n" ++ ", ".intercalate (slice symbols (50 * k) (50 * k + 50))) ∧
      ((List.range ((symbols.length + 49) / 50)).map
        (fun k => slice symbols (50 * k) (50 * k + 50))).flatten = symbols ∧
      (∀ k, k < (symbols.length + 49) / 50 →
        1 ≤ (slice symbols (50 * k) (50 * k + 50)).length ∧
          (slice symbols (50 * k) (50 * k + 50)).length ≤ 50 ∧
          (k + 1 < (symbols.length + 49) / 50 →
            (slice symbols (50 * k) (50 * k + 50)).length = 50) ∧
          50 * k + (slice symbols (50 * k) (50 * k + 50)).length =
            min (50 * k + 50) symbols.length) ∧
      (symbols.length = 120 →
        ((List.range ((symbols.length + 49) / 50)).map
          (fun k => (slice symbols (50 * k) (50 * k + 50)).length)) = [50, 50, 20]) := by
  have hperm : symbols.Perm w.currentSymbols.elems := hs ▸ sort_perm _
  have hlen : symbols.length ≠ 0 := by
    rw [hperm.length_eq]
    exact fun h => hne (List.length_eq_zero.mp h)
  have hrun : onSymbols env chatId w =
      sendChunks env chatId symbols symbols.length 0 w := by
    unfold onSymbols
    simp only [← hs]
    rw [if_neg hlen]
  refine ⟨hs ▸ sort_sorted _, hperm, hperm.nodup_iff.mpr w.currentSymbols.nodup, ?_, ?_,
    fun k => rfl, flatten_slices _ symbols (by omega), ?_, ?_⟩
  · rw [hrun, sendChunks_of_delivered env chatId symbols hok _ _ _ (by omega)]
  · rw [hrun, sendChunks_of_delivered env chatId symbols hok _ _ _ (by omega)]
    simp
  · intro k hk
    rw [length_slice]
    refine ⟨by omega, by omega, fun h => by omega, by omega⟩
  · intro h120
    simp only [length_slice, h120]
    decide

/-- Scenario A after its cycle: three known symbols, listed to chat 1001 in one chunk. -/
theorem onSymbols_chunks_witness :
    (onSymbols (healthyEnv []) 1001
        { scenarioA with currentSymbols := JSSet.ofArray ["SOL", "BTC", "ETH"] }).2.calls =
      [Event.sendMessage 1001 "📋 Symbols (1-3 of 3):\n\nBTC, ETH, SOL" none] :=
  (onSymbols_chunks (healthyEnv []) 1001
    { scenarioA with currentSymbols := JSSet.ofArray ["SOL", "BTC", "ETH"] }
    ["BTC", "ETH", "SOL"] (by decide) (by decide) (fun _ => rfl)).2.2.2.2.1.trans (by decide)

end LighterTGBot
